import Mathlib

/-!
Verification development for the SerialPipe logging tool
(src/SerialPipe.ino): a shallow embedding of its configuration
persistence subsystem (CRC8, load_config / save_config /
set_default_config), of the boot mode selection loop in setup, and of
one bridging tick of serialPipe, together with theorems about them.

Machine bytes are modelled as natural numbers below 256; multi-byte
fields of the persisted record are kept as their little-endian byte
images, so the float field tx_power is represented by the four bytes
of its IEEE-754 single precision image exactly as memcpy sees them.
-/

namespace SerialPipe

/-! ## Compile-time constants (src/SerialPipe.ino lines 49-83) -/

/-- CONFIGURATION_KEY: the character c (ASCII 99) that selects configuration mode. -/
def CONFIGURATION_KEY : Nat := 99

/-- DEFAULT_BAUD_DUT (line 54). -/
def DEFAULT_BAUD_DUT : Nat := 115200

/-- DEFAULT_BAUD_LOGGER (line 57). -/
def DEFAULT_BAUD_LOGGER : Nat := 115200

/-- DEFAULT_LISTEN_PORT (line 66). -/
def DEFAULT_LISTEN_PORT : Nat := 23

/-- STACK_PROTECTOR (line 60): the fixed stack-safe chunk limit of the serial to TCP path. -/
def STACK_PROTECTOR : Nat := 512

/-- MAX_SRV_CLIENTS (line 72): the number of client slots in the firmware image. -/
def MAX_SRV_CLIENTS : Nat := 2

/-- CONFIG_CONSOLE_BAUD_SERIAL (line 75). -/
def CONFIG_CONSOLE_BAUD_SERIAL : Nat := 115200

/-- CONFIG_CONSOLE_ENTRY_DELAY_MS (line 77): the boot-time entry window in milliseconds. -/
def CONFIG_CONSOLE_ENTRY_DELAY_MS : Nat := 1000

/-! ## CRC8 (src/SerialPipe.ino lines 536-550) -/

/-- One iteration of the inner for loop of CRC8 (lines 540-547): the low
bit of (crc XOR extract) is tested, crc is shifted right one bit, and
0x8C is XORed in when the tested bit was set. -/
def crc8_round (crc extract : Nat) : Nat :=
  if (crc ^^^ extract) &&& 1 ≠ 0 then (crc >>> 1) ^^^ 0x8C else crc >>> 1

/-- The remaining n iterations of the inner for loop of CRC8: after each
round the extract byte is shifted right one bit. -/
def crc8_byte : Nat → Nat → Nat → Nat
  | 0, crc, _ => crc
  | n + 1, crc, extract => crc8_byte n (crc8_round crc extract) (extract >>> 1)

/-- The while loop of CRC8 from a given crc register value: every byte of
data is processed in order by eight rounds of crc8_round. -/
def crc8_run (crc : Nat) (data : List Nat) : Nat :=
  data.foldl (fun c b => crc8_byte 8 c b) crc

/-- CRC8 (lines 536-550): Dallas/Maxim CRC-8, initial register value 0.
The C prototype takes the length as a separate byte argument; the list
embedding processes exactly the listed bytes, which is what every call
site passes (len = sizeof(serialpipe_config_t) = 112). -/
def CRC8 (data : List Nat) : Nat := crc8_run 0 data

/-- One step of the reference construction, written from the words of the
specification: the low bit of (crc XOR remaining-byte) is tested, crc is
shifted right one bit, 0x8C is XORed in when the tested bit was 1, and
the byte is shifted right one bit. -/
def crc8_spec_iter (p : Nat × Nat) : Nat × Nat :=
  if (p.1 ^^^ p.2) &&& 1 = 1 then ((p.1 >>> 1) ^^^ 0x8C, p.2 >>> 1)
  else (p.1 >>> 1, p.2 >>> 1)

/-- The reference CRC-8 from the words of the specification: initial
value 0 and, for each input byte processed in order, 8 iterations of
crc8_spec_iter. -/
def crc8_spec (data : List Nat) : Nat :=
  data.foldl (fun c b => (crc8_spec_iter^[8] (c, b)).1) 0

/-! ## Configuration data model (src/SerialPipe.ino lines 87-107)

serialpipe_config_t is wifi_settings_t (char ssid[32]; char psk[64];
float tx_power; int listen_port) followed by uart_settings_t
(uint32_t log_baud_rate; uint32_t dut_baud_rate).  Every field is kept
as its byte image, so the record layout is the concatenation of the
fields at offsets 0, 32, 96, 100, 104 and 108, 112 bytes in total. -/

structure serialpipe_config_t where
  ssid : List Nat
  psk : List Nat
  tx_power : List Nat
  listen_port : List Nat
  log_baud_rate : List Nat
  dut_baud_rate : List Nat
deriving DecidableEq

/-- sizeof(serialpipe_config_t) = 32 + 64 + 4 + 4 + 4 + 4. -/
def CONFIG_SIZE : Nat := 112

/-- Size of the persisted record serialpipe_config_file_t: the
configuration bytes immediately followed by the single crc byte. -/
def CONFIG_FILE_SIZE : Nat := 113

/-- The byte image of a configuration value, in struct field order. -/
def configBytes (c : serialpipe_config_t) : List Nat :=
  c.ssid ++ (c.psk ++ (c.tx_power ++ (c.listen_port ++ (c.log_baud_rate ++ c.dut_baud_rate))))

/-- A well-formed in-memory configuration: each field has the byte width
of the corresponding struct field and every entry is one byte. -/
def Valid (c : serialpipe_config_t) : Prop :=
  c.ssid.length = 32 ∧ c.psk.length = 64 ∧ c.tx_power.length = 4 ∧
  c.listen_port.length = 4 ∧ c.log_baud_rate.length = 4 ∧ c.dut_baud_rate.length = 4 ∧
  ∀ b ∈ configBytes c, b < 256

instance (c : serialpipe_config_t) : Decidable (Valid c) := by
  unfold Valid; infer_instance

/-- Reading the struct back from its byte image: fields at offsets
0, 32, 96, 100, 104, 108 (successive drops of 32, 64, 4, 4, 4 bytes). -/
def parseConfig (bytes : List Nat) : serialpipe_config_t :=
  { ssid := bytes.take 32
  , psk := (bytes.drop 32).take 64
  , tx_power := ((bytes.drop 32).drop 64).take 4
  , listen_port := (((bytes.drop 32).drop 64).drop 4).take 4
  , log_baud_rate := ((((bytes.drop 32).drop 64).drop 4).drop 4).take 4
  , dut_baud_rate := (((((bytes.drop 32).drop 64).drop 4).drop 4).drop 4).take 4 }

/-- Little-endian bytes of a 32-bit value, as memcpy lays out int and
uint32_t fields on this target. -/
def le32 (n : Nat) : List Nat :=
  [n % 256, (n >>> 8) % 256, (n >>> 16) % 256, (n >>> 24) % 256]

/-- DEFAULT_SSID: the bytes of the C string default copied into the
zeroed 32-byte ssid field (7 characters then NUL padding). -/
def DEFAULT_SSID_BYTES : List Nat :=
  [100, 101, 102, 97, 117, 108, 116] ++ List.replicate 25 0

/-- DEFAULT_PSK: the bytes of the C string undefined copied into the
zeroed 64-byte psk field (9 characters then NUL padding). -/
def DEFAULT_PSK_BYTES : List Nat :=
  [117, 110, 100, 101, 102, 105, 110, 101, 100] ++ List.replicate 55 0

/-- DEFAULT_TX_POWER (line 69): little-endian bytes of the IEEE-754
single precision value 12.0, whose bit image is 0x41400000. -/
def DEFAULT_TX_POWER_BYTES : List Nat := [0x00, 0x00, 0x40, 0x41]

/-- Little-endian bytes of the IEEE-754 single precision value 15.0
(bit image 0x41700000), used as a non-default transmit power. -/
def TX_POWER_15_BYTES : List Nat := [0x00, 0x00, 0x70, 0x41]

/-- set_default_config (src lines 488-496): the struct is zeroed and the
default values are written field by field. -/
def set_default_config : serialpipe_config_t :=
  { ssid := DEFAULT_SSID_BYTES
  , psk := DEFAULT_PSK_BYTES
  , tx_power := DEFAULT_TX_POWER_BYTES
  , listen_port := le32 DEFAULT_LISTEN_PORT
  , log_baud_rate := le32 DEFAULT_BAUD_LOGGER
  , dut_baud_rate := le32 DEFAULT_BAUD_DUT }

/-- save_config (src lines 470-486): the record written to
/serialpipe.conf is the configuration bytes followed by the single CRC8
byte computed over them. -/
def save_config (c : serialpipe_config_t) : List Nat :=
  configBytes c ++ [CRC8 (configBytes c)]

/-- load_config (src lines 418-458), record handling: when the stored
file has the expected size and its crc byte (offset 112) matches the
CRC8 recomputed over the configuration bytes, the parsed configuration
is adopted; otherwise set_default_config is applied and immediately
persisted via save_config.  Returns the in-memory configuration after
the load together with the stored file after the load.  On the mismatch
path the source first memcpy-s the rejected bytes into the global and
then set_default_config zeroes the whole struct and rewrites every
field, so only the final value is observable. -/
def load_config (file : List Nat) : serialpipe_config_t × List Nat :=
  if file.length = CONFIG_FILE_SIZE ∧ file.getD CONFIG_SIZE 0 = CRC8 (file.take CONFIG_SIZE)
  then (parseConfig (file.take CONFIG_SIZE), file)
  else (set_default_config, save_config set_default_config)

/-! ## Client slots and one bridging tick (src/SerialPipe.ino lines 217-308) -/

/-- One WiFiClient slot: its connection state, its outbound writable
byte budget and the bytes pending to be read from it this tick. -/
structure WiFiClient where
  connected : Bool
  afw : Nat
  avail : Nat
deriving DecidableEq

/-- availableForWrite of a slot: 0 when the client is not connected
(stated by the source comment at line 273), its budget otherwise. -/
def availableForWrite (c : WiFiClient) : Nat := if c.connected then c.afw else 0

/-- available of a slot: 0 when the client is not connected. -/
def clientAvailable (c : WiFiClient) : Nat := if c.connected then c.avail else 0

/-- The bytes of the rejection text busy sent to a surplus connection
(line 254). -/
def BUSY_MSG : List Nat := [98, 117, 115, 121]

/-- The accept scan (lines 244-250): slots are scanned in fixed order
and the incoming client is stored in the first slot that is not
connected; the returned index is the position used, none when every
slot was connected. -/
def acceptScan (newc : WiFiClient) : List WiFiClient → List WiFiClient × Option Nat
  | [] => ([], none)
  | c :: rest =>
    if c.connected then
      let r := acceptScan newc rest
      (c :: r.1, r.2.map (· + 1))
    else (newc :: rest, some 0)

/-- The new-client block (lines 241-261): run only when the server has a
pending connection; on a full table the offered connection is sent
BUSY_MSG and closed, and no slot is written.  Returns the slot table,
the assigned index and the rejection message. -/
def acceptNewClient (clients : List WiFiClient) (hasClient : Bool) (newc : WiFiClient) :
    List WiFiClient × Option Nat × Option (List Nat) :=
  if hasClient then
    let r := acceptScan newc clients
    match r.2 with
    | some i => (r.1, some i, none)
    | none => (clients, none, some BUSY_MSG)
  else (clients, none, none)

/-- The client-to-serial drain loop (lines 266-270): client bytes are
copied byte by byte to the serial port while its write budget lasts;
returns the total number of bytes written to the serial port. -/
def drainToSerial (clients : List WiFiClient) (serialAfw : Nat) : Nat :=
  clients.foldl (fun acc c => acc + min (clientAvailable c) (serialAfw - acc)) 0

/-- One step of the maxToTcp loop (lines 274-288): a disconnected slot
is skipped, a connected slot with zero writable budget is logged as
congested and skipped, and otherwise the accumulator becomes the budget
when it is still 0 and the minimum with the budget otherwise. -/
def maxToTcpStep (m : Nat) (c : WiFiClient) : Nat :=
  if c.connected then
    if availableForWrite c ≠ 0 then
      if m = 0 then availableForWrite c else min m (availableForWrite c)
    else m
  else m

/-- The fair TCP output bound maxToTcp (lines 274-288), 0 when no
connected slot has a nonzero writable budget. -/
def maxToTcp (clients : List WiFiClient) : Nat := clients.foldl maxToTcpStep 0

/-- The writable budgets of the connected, non-congested slots, in slot
order: the set the specification takes the minimum over. -/
def nonzeroBudgets (clients : List WiFiClient) : List Nat :=
  (clients.filter (fun c => c.connected && (availableForWrite c != 0))).map availableForWrite

/-- Minimum of a list of naturals, 0 for the empty list (the convention
the code resolves the empty minimum to). -/
def listMin : List Nat → Nat
  | [] => 0
  | x :: xs => xs.foldl min x

/-- The number of connected congested clients logged by the maxToTcp
loop (line 286). -/
def congestedCount (clients : List WiFiClient) : Nat :=
  (clients.filter (fun c => c.connected && (availableForWrite c == 0))).length

/-- Inputs of one bridging tick: the receive buffer of the debug
console (front element is returned by the next read call), whether the
server has a pending connection and the client it would deliver, the
slot table, and the byte counts of the hardware serial port. -/
structure PipeInput where
  consoleBuf : List Nat
  hasClient : Bool
  newClient : WiFiClient
  clients : List WiFiClient
  serialAvail : Nat
  serialAfw : Nat
deriving DecidableEq

/-- Observable outcome of one bridging tick. -/
structure PipeResult where
  configuration_mode : Bool
  serialSwapped : Bool
  consoleBaud : Option Nat
  clients : List WiFiClient
  acceptedIndex : Option Nat
  rejectMessage : Option (List Nat)
  congestedLogs : Nat
  drainedToSerial : Nat
  chunkLen : Nat
  sentTo : List Bool
  serialRemaining : Nat
deriving DecidableEq

/-- One bridging tick, serialPipe (src lines 217-308).  The status LED
step (lines 219-229) touches no claimed state and is omitted.  When the
single byte returned by the console read call equals CONFIGURATION_KEY
the tick swaps the serial pins back, reopens the console at
CONFIG_CONSOLE_BAUD_SERIAL, sets configuration_mode and returns at once
(lines 231-238).  Otherwise the tick accepts at most one connection,
drains client bytes to the serial port, computes maxToTcp, reads
len = min(serial available, maxToTcp, STACK_PROTECTOR) bytes and hands
that chunk to every slot whose availableForWrite is at least len
(lines 240-307). -/
def serialPipe (inp : PipeInput) : PipeResult :=
  if inp.consoleBuf.head? = some CONFIGURATION_KEY then
    { configuration_mode := true
    , serialSwapped := true
    , consoleBaud := some CONFIG_CONSOLE_BAUD_SERIAL
    , clients := inp.clients
    , acceptedIndex := none
    , rejectMessage := none
    , congestedLogs := 0
    , drainedToSerial := 0
    , chunkLen := 0
    , sentTo := List.replicate inp.clients.length false
    , serialRemaining := inp.serialAvail }
  else
    let a := acceptNewClient inp.clients inp.hasClient inp.newClient
    let len := min (min inp.serialAvail (maxToTcp a.1)) STACK_PROTECTOR
    { configuration_mode := false
    , serialSwapped := false
    , consoleBaud := none
    , clients := a.1
    , acceptedIndex := a.2.1
    , rejectMessage := a.2.2
    , congestedLogs := congestedCount a.1
    , drainedToSerial := drainToSerial a.1 inp.serialAfw
    , chunkLen := len
    , sentTo :=
        if len ≠ 0 then a.1.map (fun c => decide (len ≤ availableForWrite c))
        else List.replicate a.1.length false
    , serialRemaining := inp.serialAvail - len }

/-! ## Boot mode selection (setup, src/SerialPipe.ino lines 125-148) -/

/-- The boot poll loop (lines 136-140) over a trace of pairs (value
returned by the read call, millis at that poll): the loop exits with
the read value as soon as it equals CONFIGURATION_KEY, or after the
first poll at which millis has reached
CONFIG_CONSOLE_ENTRY_DELAY_MS; none when the trace ends first. -/
def setup_poll : List (Nat × Nat) → Option Nat
  | [] => none
  | (ch, t) :: rest =>
    if ch = CONFIGURATION_KEY then some ch
    else if CONFIG_CONSOLE_ENTRY_DELAY_MS ≤ t then some ch
    else setup_poll rest

/-- The single boot decision (lines 142-147): true selects the
configuration console, false the serial pipe. -/
def setup_mode (trace : List (Nat × Nat)) : Option Bool :=
  (setup_poll trace).map (fun ch => decide (ch = CONFIGURATION_KEY))

/-- The trigger character is read while the entry window is still open:
some poll returns it and every earlier poll happened strictly before
millis reached the deadline. -/
def receivedInWindow : List (Nat × Nat) → Bool
  | [] => false
  | (ch, t) :: rest =>
    (ch == CONFIGURATION_KEY) ||
      ((decide (t < CONFIG_CONSOLE_ENTRY_DELAY_MS)) && receivedInWindow rest)

/-! ## Bridge mode startup (setupSerialPipe, src/SerialPipe.ino lines 162-200) -/

/-- Observable parameters applied by setupSerialPipe. -/
structure SetupPipeResult where
  serialBaud : List Nat
  appliedTxPower : List Nat
  loggedTxPower : List Nat
  listenPort : List Nat
deriving DecidableEq

/-- setupSerialPipe (src lines 162-200): the serial port is opened at
the configured DUT baud rate and the server listens on the configured
port, but WiFi.setOutputPower is called with the constant
DEFAULT_TX_POWER (line 178) while the log line at line 182 prints the
configured tx_power field. -/
def setupSerialPipe (cfg : serialpipe_config_t) : SetupPipeResult :=
  { serialBaud := cfg.dut_baud_rate
  , appliedTxPower := DEFAULT_TX_POWER_BYTES
  , loggedTxPower := cfg.tx_power
  , listenPort := cfg.listen_port }

/-! ## Concrete inputs used by counterexamples and witnesses -/

/-- A configuration equal to the defaults except for a transmit power of
15.0, as the configuration console would persist it. -/
def tx15_config : serialpipe_config_t :=
  { set_default_config with tx_power := TX_POWER_15_BYTES }

/-- Three connected slots with writable budgets 50, 10 and 100: the
fan-out example of the specification. -/
def c4_clients : List WiFiClient :=
  [{ connected := true, afw := 50, avail := 0 }
  , { connected := true, afw := 10, avail := 0 }
  , { connected := true, afw := 100, avail := 0 }]

/-- A quiet-console bridging tick over c4_clients with 40 serial bytes
available. -/
def c4_input : PipeInput :=
  { consoleBuf := []
  , hasClient := false
  , newClient := { connected := false, afw := 0, avail := 0 }
  , clients := c4_clients
  , serialAvail := 40
  , serialAfw := 0 }

/-- A bridging tick whose console buffer holds the byte x before the
trigger byte c, with a pending connection, a free slot and serial data
available. -/
def c6_input : PipeInput :=
  { consoleBuf := [120, 99]
  , hasClient := true
  , newClient := { connected := true, afw := 8, avail := 0 }
  , clients := [{ connected := false, afw := 0, avail := 0 }
               , { connected := true, afw := 4, avail := 2 }]
  , serialAvail := 7
  , serialAfw := 3 }

/-- A bridging tick whose console read returns the trigger byte. -/
def c6_trigger_input : PipeInput :=
  { c6_input with consoleBuf := [99] }

/-- A tick with slot 0 connected and slot 1 free, and a pending
connection: the lowest-indexed free slot is slot 1. -/
def c5_free_input : PipeInput :=
  { consoleBuf := []
  , hasClient := true
  , newClient := { connected := true, afw := 7, avail := 0 }
  , clients := [{ connected := true, afw := 5, avail := 0 }
               , { connected := false, afw := 0, avail := 0 }]
  , serialAvail := 0
  , serialAfw := 0 }

/-- A tick with every slot connected and a pending connection. -/
def c5_full_input : PipeInput :=
  { c5_free_input with
      clients := [{ connected := true, afw := 5, avail := 0 }
                 , { connected := true, afw := 6, avail := 0 }] }

/-- A tick in which the only connected slot is congested. -/
def c10_input : PipeInput :=
  { consoleBuf := []
  , hasClient := false
  , newClient := { connected := false, afw := 0, avail := 0 }
  , clients := [{ connected := true, afw := 0, avail := 3 }
               , { connected := false, afw := 7, avail := 9 }]
  , serialAvail := 40
  , serialAfw := 5 }

/-! ## CRC8 lemmas -/

theorem xor_left_comm (a b c : Nat) : a ^^^ (b ^^^ c) = b ^^^ (a ^^^ c) := by
  rw [← Nat.xor_assoc, Nat.xor_comm a b, Nat.xor_assoc]

theorem shiftRight_one_xor (a b : Nat) : (a ^^^ b) >>> 1 = (a >>> 1) ^^^ (b >>> 1) := by
  apply Nat.eq_of_testBit_eq
  intro i
  simp [Nat.testBit_shiftRight, Nat.testBit_xor]

theorem and_one_cases (x : Nat) : x &&& 1 = 0 ∨ x &&& 1 = 1 := by
  simp only [Nat.and_one_is_mod]; omega

theorem xor_xor_cancel (a b k : Nat) : (a ^^^ k) ^^^ (b ^^^ k) = a ^^^ b := by
  rw [Nat.xor_assoc, xor_left_comm k b k, Nat.xor_self, Nat.xor_zero]

theorem crc8_round_linear (c1 e1 c2 e2 : Nat) :
    crc8_round (c1 ^^^ c2) (e1 ^^^ e2) = crc8_round c1 e1 ^^^ crc8_round c2 e2 := by
  have hshuffle : (c1 ^^^ c2) ^^^ (e1 ^^^ e2) = (c1 ^^^ e1) ^^^ (c2 ^^^ e2) := by
    rw [Nat.xor_assoc, xor_left_comm c2 e1 e2, ← Nat.xor_assoc]
  have hsum : ((c1 ^^^ c2) ^^^ (e1 ^^^ e2)) &&& 1 =
      ((c1 ^^^ e1) &&& 1) ^^^ ((c2 ^^^ e2) &&& 1) := by
    rw [hshuffle]; exact Nat.and_xor_distrib_right
  unfold crc8_round
  rcases and_one_cases (c1 ^^^ e1) with h1 | h1 <;>
    rcases and_one_cases (c2 ^^^ e2) with h2 | h2
  · rw [hsum, h1, h2, if_neg (by decide), if_neg (by decide), if_neg (by decide),
      shiftRight_one_xor]
  · rw [hsum, h1, h2, if_pos (by decide), if_neg (by decide), if_pos (by decide),
      shiftRight_one_xor, Nat.xor_assoc]
  · rw [hsum, h1, h2, if_pos (by decide), if_pos (by decide), if_neg (by decide),
      shiftRight_one_xor, Nat.xor_assoc, Nat.xor_comm (c2 >>> 1) 0x8C, ← Nat.xor_assoc]
  · rw [hsum, h1, h2, if_neg (by decide), if_pos (by decide), if_pos (by decide),
      shiftRight_one_xor]
    exact (xor_xor_cancel (c1 >>> 1) (c2 >>> 1) 0x8C).symm

theorem crc8_byte_linear (n : Nat) : ∀ c1 e1 c2 e2 : Nat,
    crc8_byte n (c1 ^^^ c2) (e1 ^^^ e2) = crc8_byte n c1 e1 ^^^ crc8_byte n c2 e2 := by
  induction n with
  | zero => intro c1 e1 c2 e2; rfl
  | succ n ih =>
    intro c1 e1 c2 e2
    simp only [crc8_byte]
    rw [crc8_round_linear, shiftRight_one_xor]
    exact ih _ _ _ _

theorem crc8_run_linear (xs : List Nat) : ∀ (ys : List Nat) (c1 c2 : Nat),
    xs.length = ys.length →
    crc8_run (c1 ^^^ c2) (List.zipWith (fun a b => a ^^^ b) xs ys) =
      crc8_run c1 xs ^^^ crc8_run c2 ys := by
  induction xs with
  | nil =>
    intro ys c1 c2 h
    cases ys with
    | nil => rfl
    | cons y ys => simp at h
  | cons x xs ih =>
    intro ys c1 c2 h
    cases ys with
    | nil => simp at h
    | cons y ys =>
      simp only [List.zipWith_cons_cons, crc8_run, List.foldl_cons]
      rw [crc8_byte_linear]
      exact ih ys _ _ (by simpa using h)

theorem crc8_round_lt (c e : Nat) (h : c < 256) : crc8_round c e < 256 := by
  unfold crc8_round
  have h1 : c >>> 1 < 256 := by
    rw [Nat.shiftRight_eq_div_pow]
    exact Nat.lt_of_le_of_lt (Nat.div_le_self c (2 ^ 1)) h
  split
  · have e8 : (2 : Nat) ^ 8 = 256 := by norm_num
    have h2 : (c >>> 1) ^^^ 0x8C < 2 ^ 8 :=
      Nat.xor_lt_two_pow (by rw [e8]; exact h1) (by rw [e8]; omega)
    rw [e8] at h2
    exact h2
  · exact h1

theorem crc8_byte_lt (n : Nat) : ∀ c e : Nat, c < 256 → crc8_byte n c e < 256 := by
  induction n with
  | zero => intro c e h; exact h
  | succ n ih =>
    intro c e h
    simp only [crc8_byte]
    exact ih _ _ (crc8_round_lt c e h)

theorem crc8_run_lt (data : List Nat) : ∀ c : Nat, c < 256 → crc8_run c data < 256 := by
  induction data with
  | nil => intro c h; exact h
  | cons b data ih =>
    intro c h
    simp only [crc8_run, List.foldl_cons]
    exact ih _ (crc8_byte_lt 8 c b h)

theorem CRC8_lt (data : List Nat) : CRC8 data < 256 :=
  crc8_run_lt data 0 (by omega)

set_option maxRecDepth 100000 in
theorem crc8_byte_zero_left : ∀ c, c < 256 → crc8_byte 8 c 0 = 0 → c = 0 := by decide

set_option maxRecDepth 100000 in
theorem crc8_byte_zero_right : ∀ e, e < 256 → crc8_byte 8 0 e = 0 → e = 0 := by decide

theorem crc8_run_replicate_zero (k : Nat) : crc8_run 0 (List.replicate k 0) = 0 := by
  induction k with
  | zero => rfl
  | succ k ih =>
    simp only [List.replicate, crc8_run, List.foldl_cons] at ih ⊢
    simpa [(by decide : crc8_byte 8 0 0 = 0)] using ih

theorem crc8_run_zeros_ne (m : Nat) : ∀ c, c < 256 → c ≠ 0 →
    crc8_run c (List.replicate m 0) ≠ 0 := by
  induction m with
  | zero => intro c _ h0; simpa [crc8_run] using h0
  | succ m ih =>
    intro c hc h0
    have h8 : crc8_byte 8 c 0 ≠ 0 := fun h => h0 (crc8_byte_zero_left c hc h)
    have hlt : crc8_byte 8 c 0 < 256 := crc8_byte_lt 8 c 0 hc
    simpa [List.replicate, crc8_run, List.foldl_cons] using ih _ hlt h8

theorem crc8_run_append (c : Nat) (xs ys : List Nat) :
    crc8_run c (xs ++ ys) = crc8_run (crc8_run c xs) ys := by
  simp [crc8_run, List.foldl_append]

theorem crc8_unit_ne (k m e : Nat) (he : e < 256) (he0 : e ≠ 0) :
    crc8_run 0 (List.replicate k 0 ++ e :: List.replicate m 0) ≠ 0 := by
  rw [crc8_run_append, crc8_run_replicate_zero]
  have h8 : crc8_byte 8 0 e ≠ 0 := fun h => he0 (crc8_byte_zero_right e he h)
  have hlt : crc8_byte 8 0 e < 256 := crc8_byte_lt 8 0 e (by omega)
  simpa [crc8_run, List.foldl_cons] using crc8_run_zeros_ne m _ hlt h8

theorem zipWith_xor_zero (l : List Nat) :
    List.zipWith (fun a b => a ^^^ b) l (List.replicate l.length 0) = l := by
  induction l with
  | nil => rfl
  | cons a l ih => simp [List.replicate, ih]

theorem set_eq_zipWith_xor (data : List Nat) : ∀ (k e : Nat), k < data.length →
    data.set k (data.getD k 0 ^^^ e) =
      List.zipWith (fun a b => a ^^^ b) data
        (List.replicate k 0 ++ e :: List.replicate (data.length - k - 1) 0) := by
  induction data with
  | nil => intro k e h; simp at h
  | cons a l ih =>
    intro k e h
    cases k with
    | zero => simp [zipWith_xor_zero]
    | succ k =>
      have h2 : k < l.length := by simpa using h
      simp only [List.replicate, List.cons_append, List.zipWith_cons_cons,
        List.set_cons_succ, List.getD_cons_succ, List.length_cons, Nat.xor_zero,
        Nat.succ_sub_succ]
      rw [ih k e h2]

theorem CRC8_set_ne (data : List Nat) (k e : Nat) (hk : k < data.length)
    (he : e < 256) (he0 : e ≠ 0) :
    CRC8 (data.set k (data.getD k 0 ^^^ e)) ≠ CRC8 data := by
  have hlen : data.length =
      (List.replicate k 0 ++ e :: List.replicate (data.length - k - 1) 0).length := by
    simp; omega
  have hz : CRC8 (data.set k (data.getD k 0 ^^^ e)) =
      CRC8 data ^^^
        crc8_run 0 (List.replicate k 0 ++ e :: List.replicate (data.length - k - 1) 0) := by
    rw [set_eq_zipWith_xor data k e hk]
    have := crc8_run_linear data
      (List.replicate k 0 ++ e :: List.replicate (data.length - k - 1) 0) 0 0 hlen
    simpa [CRC8] using this
  intro hEq
  rw [hz] at hEq
  have h2 : CRC8 data ^^^
      crc8_run 0 (List.replicate k 0 ++ e :: List.replicate (data.length - k - 1) 0) =
      CRC8 data ^^^ 0 := by simpa using hEq
  exact crc8_unit_ne k (data.length - k - 1) e he he0 (Nat.xor_right_inj.mp h2)

theorem foldl_congr_fun {f g : Nat → Nat → Nat} (h : ∀ c b, f c b = g c b) :
    ∀ (data : List Nat) (c : Nat), data.foldl f c = data.foldl g c := by
  intro data
  induction data with
  | nil => intro c; rfl
  | cons b data ih => intro c; simp only [List.foldl_cons, h, ih]

theorem crc8_spec_iter_pair (n : Nat) : ∀ c e : Nat,
    crc8_spec_iter^[n] (c, e) = (crc8_byte n c e, e >>> n) := by
  induction n with
  | zero => intro c e; simp [crc8_byte]
  | succ n ih =>
    intro c e
    rw [Function.iterate_succ_apply]
    have hstep : crc8_spec_iter (c, e) = (crc8_round c e, e >>> 1) := by
      unfold crc8_spec_iter crc8_round
      rcases and_one_cases (c ^^^ e) with h | h <;> simp [h]
    rw [hstep, ih]
    simp [crc8_byte, ← Nat.shiftRight_add, Nat.add_comm]

/-- C1: the checksum used for the persisted record is CRC8 (save_config
appends exactly one CRC8 byte to the configuration bytes), and on every
byte sequence CRC8 equals the reference Dallas/Maxim construction:
initial value 0, per input byte eight iterations testing the low bit of
(crc XOR remaining-byte), shifting crc right, XORing in 0x8C when the
tested bit was 1, and shifting the byte right. -/
theorem CRC8_matches_reference :
    (∀ data : List Nat, CRC8 data = crc8_spec data) ∧
    (∀ cfg : serialpipe_config_t,
      save_config cfg = configBytes cfg ++ [CRC8 (configBytes cfg)]) := by
  constructor
  · intro data
    have hf : ∀ c b : Nat, (crc8_spec_iter^[8] (c, b)).1 = crc8_byte 8 c b := by
      intro c b; rw [crc8_spec_iter_pair]
    show List.foldl (fun c b => crc8_byte 8 c b) 0 data =
      List.foldl (fun c b => (crc8_spec_iter^[8] (c, b)).1) 0 data
    exact (foldl_congr_fun hf data 0).symm
  · intro cfg; rfl

/-- C9: CRC8 is deterministic, and flipping any single bit of any byte
of any byte sequence changes the CRC8 value. -/
theorem CRC8_deterministic_and_bitflip :
    (∀ d1 d2 : List Nat, d1 = d2 → CRC8 d1 = CRC8 d2) ∧
    (∀ data : List Nat, (∀ b ∈ data, b < 256) →
      ∀ k, k < data.length → ∀ j, j < 8 →
        CRC8 (data.set k (data.getD k 0 ^^^ (1 <<< j))) ≠ CRC8 data) := by
  refine ⟨fun d1 d2 h => by rw [h], ?_⟩
  intro data _ k hk j hj
  have hlt : (1 <<< j) < 256 := by
    rw [Nat.one_shiftLeft]
    calc 2 ^ j < 2 ^ 8 := Nat.pow_lt_pow_right (by omega) hj
    _ = 256 := by norm_num
  have hne : (1 <<< j) ≠ 0 := by
    rw [Nat.one_shiftLeft]
    exact Nat.pos_iff_ne_zero.mp (Nat.pos_pow_of_pos j (by omega))
  exact CRC8_set_ne data k (1 <<< j) hk hlt hne

/-- Witness for C9 at a concrete input: flipping bit 0 of byte 1 of the
sequence 1, 2, 3 changes the CRC8 value. -/
theorem CRC8_bitflip_inst :
    CRC8 ([1, 2, 3].set 1 (([1, 2, 3].getD 1 0) ^^^ (1 <<< 0))) ≠ CRC8 [1, 2, 3] :=
  CRC8_deterministic_and_bitflip.2 [1, 2, 3] (by decide) 1 (by decide) 0 (by decide)

/-! ## Persistence lemmas -/

theorem xor_lt_256 (a b : Nat) (ha : a < 256) (hb : b < 256) : a ^^^ b < 256 := by
  have e8 : (2 : Nat) ^ 8 = 256 := by norm_num
  have h := Nat.xor_lt_two_pow (x := a) (y := b) (n := 8)
    (by rw [e8]; exact ha) (by rw [e8]; exact hb)
  rwa [e8] at h

theorem getD_lt_of_forall (l : List Nat) (i : Nat) (hi : i < l.length)
    (h : ∀ b ∈ l, b < 256) : l.getD i 0 < 256 := by
  have h1 : l.getD i 0 = l.get ⟨i, hi⟩ := by
    simp [List.getD_eq_getElem?_getD, List.getElem?_eq_getElem hi]
  rw [h1]
  exact h _ (List.get_mem l i hi)

theorem configBytes_length (cfg : serialpipe_config_t) (h : Valid cfg) :
    (configBytes cfg).length = CONFIG_SIZE := by
  obtain ⟨h1, h2, h3, h4, h5, h6, _⟩ := h
  simp [configBytes, h1, h2, h3, h4, h5, h6, CONFIG_SIZE]

theorem parseConfig_configBytes (cfg : serialpipe_config_t) (h : Valid cfg) :
    parseConfig (configBytes cfg) = cfg := by
  obtain ⟨h1, h2, h3, h4, h5, h6, _⟩ := h
  obtain ⟨s, p, tx, lp, lg, dt⟩ := cfg
  simp only at h1 h2 h3 h4 h5 h6
  unfold parseConfig configBytes
  simp only
  rw [List.take_left' h1, List.drop_left' h1, List.take_left' h2, List.drop_left' h2,
    List.take_left' h3, List.drop_left' h3, List.take_left' h4, List.drop_left' h4,
    List.take_left' h5, List.drop_left' h5, ← h6, List.take_length]

theorem save_config_length (cfg : serialpipe_config_t) (h : Valid cfg) :
    (save_config cfg).length = CONFIG_FILE_SIZE := by
  have := configBytes_length cfg h
  simp only [save_config, List.length_append, List.length_cons, List.length_nil, this]
  rfl

theorem save_config_take (cfg : serialpipe_config_t) (h : Valid cfg) :
    (save_config cfg).take CONFIG_SIZE = configBytes cfg := by
  unfold save_config
  exact List.take_left' (configBytes_length cfg h)

theorem save_config_getD (cfg : serialpipe_config_t) (h : Valid cfg) :
    (save_config cfg).getD CONFIG_SIZE 0 = CRC8 (configBytes cfg) := by
  unfold save_config
  rw [List.getD_append_right _ _ _ _ (le_of_eq (configBytes_length cfg h)),
    configBytes_length cfg h]
  simp

/-- C2: on healthy storage, saving any valid configuration and loading
it back yields exactly that configuration: the record save_config
writes has the expected size and a checksum byte matching the CRC8 of
its configuration bytes, load_config accepts it, and the in-memory
configuration equals the saved one while the stored record is kept. -/
theorem save_load_roundtrip (cfg : serialpipe_config_t) (h : Valid cfg) :
    (save_config cfg).length = CONFIG_FILE_SIZE ∧
    (save_config cfg).getD CONFIG_SIZE 0 = CRC8 ((save_config cfg).take CONFIG_SIZE) ∧
    load_config (save_config cfg) = (cfg, save_config cfg) := by
  have hlen := save_config_length cfg h
  have htake := save_config_take cfg h
  have hgetD := save_config_getD cfg h
  refine ⟨hlen, by rw [htake, hgetD], ?_⟩
  unfold load_config
  rw [if_pos ⟨hlen, by rw [htake, hgetD]⟩, htake, parseConfig_configBytes cfg h]

set_option maxRecDepth 100000 in
/-- Witness for C2: the roundtrip at the default configuration. -/
theorem save_load_roundtrip_inst :
    load_config (save_config set_default_config) =
      (set_default_config, save_config set_default_config) :=
  (save_load_roundtrip set_default_config (by decide)).2.2

/-- C3: a persisted record of the wrong size, or whose checksum byte
does not match the CRC8 of its configuration bytes, is discarded whole:
load_config installs exactly set_default_config (ssid default, psk
undefined, tx power 12.0, listen port 23, both baud rates 115200) and
immediately persists it via save_config, whose fresh record carries a
matching checksum; in particular corrupting any single byte of any
valid saved record leads to exactly that outcome. -/
theorem load_config_discards_invalid :
    (∀ file : List Nat,
      file.length ≠ CONFIG_FILE_SIZE ∨
        file.getD CONFIG_SIZE 0 ≠ CRC8 (file.take CONFIG_SIZE) →
      load_config file = (set_default_config, save_config set_default_config)) ∧
    (set_default_config.ssid = DEFAULT_SSID_BYTES ∧
      set_default_config.psk = DEFAULT_PSK_BYTES ∧
      set_default_config.tx_power = DEFAULT_TX_POWER_BYTES ∧
      set_default_config.listen_port = le32 DEFAULT_LISTEN_PORT ∧
      set_default_config.log_baud_rate = le32 DEFAULT_BAUD_LOGGER ∧
      set_default_config.dut_baud_rate = le32 DEFAULT_BAUD_DUT) ∧
    (save_config set_default_config).getD CONFIG_SIZE 0 =
      CRC8 ((save_config set_default_config).take CONFIG_SIZE) ∧
    (∀ cfg : serialpipe_config_t, Valid cfg → ∀ i, i < CONFIG_FILE_SIZE →
      ∀ v, v < 256 → v ≠ (save_config cfg).getD i 0 →
      load_config ((save_config cfg).set i v) =
        (set_default_config, save_config set_default_config)) := by
  have hdef : Valid set_default_config := by decide
  refine ⟨?_, ⟨rfl, rfl, rfl, rfl, rfl, rfl⟩, ?_, ?_⟩
  · intro file h
    unfold load_config
    have hc : ¬(file.length = CONFIG_FILE_SIZE ∧
        file.getD CONFIG_SIZE 0 = CRC8 (file.take CONFIG_SIZE)) := by
      rcases h with h | h
      · exact fun hx => h hx.1
      · exact fun hx => h hx.2
    rw [if_neg hc]
  · rw [save_config_take set_default_config hdef, save_config_getD set_default_config hdef]
  · intro cfg hv i hi v hvlt hvne
    have hcb := configBytes_length cfg hv
    by_cases hi112 : i < CONFIG_SIZE
    · -- a corrupted configuration byte changes the recomputed CRC8
      have hset : (save_config cfg).set i v =
          (configBytes cfg).set i v ++ [CRC8 (configBytes cfg)] := by
        unfold save_config
        exact List.set_append_left _ _ (by rw [hcb]; exact hi112)
      have hgi : (save_config cfg).getD i 0 = (configBytes cfg).getD i 0 := by
        unfold save_config
        exact List.getD_append _ _ _ _ (by rw [hcb]; exact hi112)
      have hbi : (configBytes cfg).getD i 0 < 256 :=
        getD_lt_of_forall _ i (by rw [hcb]; exact hi112) hv.2.2.2.2.2.2
      have he256 : (configBytes cfg).getD i 0 ^^^ v < 256 := xor_lt_256 _ _ hbi hvlt
      have hene : (configBytes cfg).getD i 0 ^^^ v ≠ 0 := by
        intro h0
        exact hvne (by rw [hgi, (Nat.xor_eq_zero.mp h0)])
      have hvrepr : v = (configBytes cfg).getD i 0 ^^^
          ((configBytes cfg).getD i 0 ^^^ v) := (Nat.xor_cancel_left _ _).symm
      have hcrcne : CRC8 ((configBytes cfg).set i v) ≠ CRC8 (configBytes cfg) := by
        rw [hvrepr]
        exact CRC8_set_ne (configBytes cfg) i _ (by rw [hcb]; exact hi112) he256 hene
      have hlen2 : ((save_config cfg).set i v).length = CONFIG_FILE_SIZE := by
        rw [List.length_set]; exact save_config_length cfg hv
      have htake2 : ((save_config cfg).set i v).take CONFIG_SIZE =
          (configBytes cfg).set i v := by
        rw [hset]
        exact List.take_left' (by rw [List.length_set]; exact hcb)
      have hgetD2 : ((save_config cfg).set i v).getD CONFIG_SIZE 0 =
          CRC8 (configBytes cfg) := by
        rw [hset, List.getD_append_right _ _ _ _
          (le_of_eq (by rw [List.length_set]; exact hcb)),
          List.length_set, hcb]
        simp
      unfold load_config
      rw [if_neg]
      intro hx
      apply hcrcne
      have := hx.2
      rw [hgetD2, htake2] at this
      exact this.symm
    · -- the corrupted byte is the stored checksum byte itself
      have hi' : i = CONFIG_SIZE := by
        have : i < CONFIG_FILE_SIZE := hi
        unfold CONFIG_SIZE at hi112 ⊢
        unfold CONFIG_FILE_SIZE at this
        omega
      subst hi'
      have hset : (save_config cfg).set CONFIG_SIZE v = configBytes cfg ++ [v] := by
        unfold save_config
        rw [List.set_append_right _ _ (le_of_eq hcb), hcb]
        simp [List.set]
      have hvne2 : v ≠ CRC8 (configBytes cfg) := by
        rw [← save_config_getD cfg hv]; exact hvne
      have hlen2 : ((save_config cfg).set CONFIG_SIZE v).length = CONFIG_FILE_SIZE := by
        rw [List.length_set]; exact save_config_length cfg hv
      have htake2 : ((save_config cfg).set CONFIG_SIZE v).take CONFIG_SIZE =
          configBytes cfg := by
        rw [hset]; exact List.take_left' hcb
      have hgetD2 : ((save_config cfg).set CONFIG_SIZE v).getD CONFIG_SIZE 0 = v := by
        rw [hset, List.getD_append_right _ _ _ _ (le_of_eq hcb), hcb]
        simp
      unfold load_config
      rw [if_neg]
      intro hx
      apply hvne2
      have := hx.2
      rw [hgetD2, htake2] at this
      exact this

set_option maxRecDepth 1000000 in
/-- Witness for C3: the empty file (wrong size) and the default record
with its first byte corrupted both load as the freshly saved default
configuration. -/
theorem load_config_discards_invalid_inst :
    load_config [] = (set_default_config, save_config set_default_config) ∧
    load_config ((save_config set_default_config).set 0 1) =
      (set_default_config, save_config set_default_config) :=
  ⟨load_config_discards_invalid.1 [] (Or.inl (by decide)),
    load_config_discards_invalid.2.2.2 set_default_config (by decide) 0 (by decide)
      1 (by decide) (by decide)⟩

/-! ## Bridging tick lemmas -/

theorem maxToTcp_go_pos (cs : List WiFiClient) : ∀ m : Nat, m ≠ 0 →
    cs.foldl maxToTcpStep m = (nonzeroBudgets cs).foldl min m := by
  induction cs with
  | nil => intro m _; rfl
  | cons c cs ih =>
    intro m hm
    by_cases hc : c.connected
    · by_cases ha : availableForWrite c ≠ 0
      · have hstep : maxToTcpStep m c = min m (availableForWrite c) := by
          simp [maxToTcpStep, hc, ha, hm]
        have hbud : nonzeroBudgets (c :: cs) =
            availableForWrite c :: nonzeroBudgets cs := by
          simp [nonzeroBudgets, List.filter_cons, hc, ha]
        rw [List.foldl_cons, hstep, hbud, List.foldl_cons]
        have hafw := ha
        exact ih _ (by omega)
      · have hstep : maxToTcpStep m c = m := by simp [maxToTcpStep, hc, ha]
        have hbud : nonzeroBudgets (c :: cs) = nonzeroBudgets cs := by
          simp only [Decidable.not_not] at ha
          simp [nonzeroBudgets, List.filter_cons, hc, ha]
        rw [List.foldl_cons, hstep, hbud]
        exact ih m hm
    · have hstep : maxToTcpStep m c = m := by simp [maxToTcpStep, hc]
      have hbud : nonzeroBudgets (c :: cs) = nonzeroBudgets cs := by
        simp [nonzeroBudgets, List.filter_cons, hc]
      rw [List.foldl_cons, hstep, hbud]
      exact ih m hm

theorem maxToTcp_eq_listMin (cs : List WiFiClient) :
    maxToTcp cs = listMin (nonzeroBudgets cs) := by
  induction cs with
  | nil => rfl
  | cons c cs ih =>
    unfold maxToTcp at ih ⊢
    by_cases hc : c.connected
    · by_cases ha : availableForWrite c ≠ 0
      · have hstep : maxToTcpStep 0 c = availableForWrite c := by
          simp [maxToTcpStep, hc, ha]
        have hbud : nonzeroBudgets (c :: cs) =
            availableForWrite c :: nonzeroBudgets cs := by
          simp [nonzeroBudgets, List.filter_cons, hc, ha]
        rw [List.foldl_cons, hstep, hbud, maxToTcp_go_pos cs _ ha]
        rfl
      · have hstep : maxToTcpStep 0 c = 0 := by simp [maxToTcpStep, hc, ha]
        have hbud : nonzeroBudgets (c :: cs) = nonzeroBudgets cs := by
          simp only [Decidable.not_not] at ha
          simp [nonzeroBudgets, List.filter_cons, hc, ha]
        rw [List.foldl_cons, hstep, hbud]
        exact ih
    · have hstep : maxToTcpStep 0 c = 0 := by simp [maxToTcpStep, hc]
      have hbud : nonzeroBudgets (c :: cs) = nonzeroBudgets cs := by
        simp [nonzeroBudgets, List.filter_cons, hc]
      rw [List.foldl_cons, hstep, hbud]
      exact ih

theorem maxToTcp_zero (cs : List WiFiClient)
    (h : ∀ c ∈ cs, c.connected = true → c.afw = 0) : maxToTcp cs = 0 := by
  unfold maxToTcp
  induction cs with
  | nil => rfl
  | cons c cs ih =>
    have hstep : maxToTcpStep 0 c = 0 := by
      by_cases hc : c.connected
      · have : c.afw = 0 := h c (by simp) hc
        simp [maxToTcpStep, availableForWrite, hc, this]
      · simp [maxToTcpStep, hc]
    rw [List.foldl_cons, hstep]
    exact ih (fun x hx => h x (by simp [hx]))

theorem acceptScan_all_connected (newc : WiFiClient) (cs : List WiFiClient)
    (h : ∀ c ∈ cs, c.connected = true) : acceptScan newc cs = (cs, none) := by
  induction cs with
  | nil => rfl
  | cons c cs ih =>
    have hc : c.connected = true := h c (by simp)
    simp [acceptScan, hc, ih (fun x hx => h x (by simp [hx]))]

theorem acceptScan_first_free (newc : WiFiClient) (cs : List WiFiClient) :
    ∀ i (hi : i < cs.length),
    (cs.get ⟨i, hi⟩).connected = false →
    (∀ j (hj : j < i), (cs.get ⟨j, Nat.lt_trans hj hi⟩).connected = true) →
    acceptScan newc cs = (cs.set i newc, some i) := by
  induction cs with
  | nil => intro i hi; simp at hi
  | cons c cs ih =>
    intro i hi hfree hbefore
    cases i with
    | zero =>
      have hc : c.connected = false := hfree
      simp [acceptScan, hc]
    | succ i =>
      have hc : c.connected = true := hbefore 0 (Nat.succ_pos i)
      have hi2 : i < cs.length := by simpa using hi
      have hfree2 : (cs.get ⟨i, hi2⟩).connected = false := by simpa using hfree
      have hbefore2 : ∀ j (hj : j < i),
          (cs.get ⟨j, Nat.lt_trans hj hi2⟩).connected = true := by
        intro j hj
        simpa using hbefore (j + 1) (Nat.succ_lt_succ hj)
      simp [acceptScan, hc, ih i hi2 hfree2 hbefore2]

/-! ## Claims on the bridging tick -/

/-- C5: in a bridging tick with a pending connection, the connection is
assigned to the lowest-indexed disconnected slot when one exists
(slot k is reused right after it frees up) and no other slot changes;
when every slot is connected the offered connection gets the textual
rejection busy and no slot is assigned or overwritten. -/
theorem serialPipe_accept_policy (inp : PipeInput)
    (hkey : inp.consoleBuf.head? ≠ some CONFIGURATION_KEY)
    (hhc : inp.hasClient = true) :
    (∀ i (hi : i < inp.clients.length),
      (inp.clients.get ⟨i, hi⟩).connected = false →
      (∀ j (hj : j < i), (inp.clients.get ⟨j, Nat.lt_trans hj hi⟩).connected = true) →
      (serialPipe inp).acceptedIndex = some i ∧
      (serialPipe inp).clients = inp.clients.set i inp.newClient ∧
      (serialPipe inp).rejectMessage = none) ∧
    ((∀ c ∈ inp.clients, c.connected = true) →
      (serialPipe inp).acceptedIndex = none ∧
      (serialPipe inp).clients = inp.clients ∧
      (serialPipe inp).rejectMessage = some BUSY_MSG) := by
  constructor
  · intro i hi hfree hbefore
    have hscan := acceptScan_first_free inp.newClient inp.clients i hi hfree hbefore
    refine ⟨?_, ?_, ?_⟩ <;> simp [serialPipe, hkey, acceptNewClient, hhc, hscan]
  · intro hall
    have hscan := acceptScan_all_connected inp.newClient inp.clients hall
    refine ⟨?_, ?_, ?_⟩ <;> simp [serialPipe, hkey, acceptNewClient, hhc, hscan]

/-- Witness for C5: slot 1 is the lowest free slot and receives the new
client; with both slots connected the connection is rejected with busy. -/
theorem serialPipe_accept_policy_inst :
    ((serialPipe c5_free_input).acceptedIndex = some 1 ∧
      (serialPipe c5_free_input).clients =
        c5_free_input.clients.set 1 c5_free_input.newClient ∧
      (serialPipe c5_free_input).rejectMessage = none) ∧
    ((serialPipe c5_full_input).acceptedIndex = none ∧
      (serialPipe c5_full_input).clients = c5_full_input.clients ∧
      (serialPipe c5_full_input).rejectMessage = some BUSY_MSG) :=
  ⟨(serialPipe_accept_policy c5_free_input (by decide) (by decide)).1 1 (by decide)
      (by decide) (by decide),
    (serialPipe_accept_policy c5_full_input (by decide) (by decide)).2 (by decide)⟩

/-- C6 counterexample: the trigger byte is available on the console
buffer (it is the second byte) but the single read of the tick returns
the byte before it, so the tick stays in bridge mode and still performs
the bridging steps: it accepts a connection and forwards a 4-byte
chunk. -/
theorem mode_switch_claim_counterexample :
    CONFIGURATION_KEY ∈ c6_input.consoleBuf ∧
    (serialPipe c6_input).configuration_mode = false ∧
    (serialPipe c6_input).acceptedIndex = some 0 ∧
    (serialPipe c6_input).chunkLen = 4 := by decide

/-- C6 amended: in every bridging tick in which the byte returned by the
console read is the trigger character, the tick swaps the serial pins
back, reopens the console at its fixed rate, enters configuration mode,
and performs none of the remaining bridging steps: no connection is
accepted, no client byte is drained to the serial port, no chunk is
forwarded, and the slot table is untouched. -/
theorem serialPipe_mode_switch (inp : PipeInput)
    (hkey : inp.consoleBuf.head? = some CONFIGURATION_KEY) :
    (serialPipe inp).configuration_mode = true ∧
    (serialPipe inp).serialSwapped = true ∧
    (serialPipe inp).consoleBaud = some CONFIG_CONSOLE_BAUD_SERIAL ∧
    (serialPipe inp).acceptedIndex = none ∧
    (serialPipe inp).rejectMessage = none ∧
    (serialPipe inp).drainedToSerial = 0 ∧
    (serialPipe inp).chunkLen = 0 ∧
    (serialPipe inp).sentTo = List.replicate inp.clients.length false ∧
    (serialPipe inp).clients = inp.clients := by
  refine ⟨?_, ?_, ?_, ?_, ?_, ?_, ?_, ?_, ?_⟩ <;> simp [serialPipe, hkey]

/-- Witness for C6 amended at a concrete tick whose console read
returns the trigger byte. -/
theorem serialPipe_mode_switch_inst :
    (serialPipe c6_trigger_input).configuration_mode = true ∧
    (serialPipe c6_trigger_input).chunkLen = 0 :=
  ⟨(serialPipe_mode_switch c6_trigger_input (by decide)).1,
    (serialPipe_mode_switch c6_trigger_input (by decide)).2.2.2.2.2.2.1⟩

/-- C4 counterexample: with connected budgets 50, 10 and 100 and 40
serial bytes available, the tick reads a chunk of min(40, 10, 512) = 10
bytes and hands it to all three slots; the claimed outcome of a 40-byte
chunk delivered to the budget-50 and budget-100 slots only does not
happen. -/
theorem fanout_claim_counterexample :
    (serialPipe c4_input).chunkLen = 10 ∧
    (serialPipe c4_input).sentTo = [true, true, true] ∧
    ¬((serialPipe c4_input).chunkLen = 40 ∧
      (serialPipe c4_input).sentTo = [true, false, true]) := by decide

/-- C4 amended: in every bridging tick the chunk length equals
min(serial available bytes, maxToTcp, STACK_PROTECTOR), where maxToTcp
is the minimum of the writable budgets of the connected clients with a
nonzero budget (0 when there are none); connected congested clients
are merely counted in the log and the fan-out alters no slot; a
nonempty chunk is handed exactly to the connected clients whose
writable budget is at least the chunk length (so in the budgets
50, 10, 100 example with 40 available bytes the 10-byte chunk reaches
all three slots). -/
theorem serialPipe_fanout (inp : PipeInput)
    (hkey : inp.consoleBuf.head? ≠ some CONFIGURATION_KEY) :
    (serialPipe inp).chunkLen =
      min (min inp.serialAvail (listMin (nonzeroBudgets (serialPipe inp).clients)))
        STACK_PROTECTOR ∧
    ((serialPipe inp).chunkLen ≠ 0 →
      (serialPipe inp).sentTo = (serialPipe inp).clients.map
        (fun c => decide (c.connected = true ∧ (serialPipe inp).chunkLen ≤ c.afw))) ∧
    (serialPipe inp).congestedLogs = congestedCount (serialPipe inp).clients ∧
    (serialPipe inp).clients =
      (acceptNewClient inp.clients inp.hasClient inp.newClient).1 := by
  refine ⟨?_, ?_, ?_, ?_⟩
  · simp [serialPipe, hkey, maxToTcp_eq_listMin]
  · intro hlen
    simp only [serialPipe, hkey, if_neg, if_false] at hlen ⊢
    rw [if_pos hlen]
    apply List.map_congr_left
    intro c _
    generalize hL : inp.serialAvail ⊓
      maxToTcp (acceptNewClient inp.clients inp.hasClient inp.newClient).1 ⊓
      STACK_PROTECTOR = L at hlen ⊢
    by_cases hc : c.connected
    · simp [availableForWrite, hc]
    · have hc2 : c.connected = false := by simpa using hc
      simp [availableForWrite, hc2, Nat.le_zero, hlen]
  · simp [serialPipe, hkey]
  · simp [serialPipe, hkey]

/-- Witness for C4 amended at the budgets 50, 10, 100 tick. -/
theorem serialPipe_fanout_inst :
    (serialPipe c4_input).chunkLen =
      min (min c4_input.serialAvail
        (listMin (nonzeroBudgets (serialPipe c4_input).clients))) STACK_PROTECTOR ∧
    (serialPipe c4_input).sentTo = (serialPipe c4_input).clients.map
      (fun c => decide (c.connected = true ∧ (serialPipe c4_input).chunkLen ≤ c.afw)) :=
  ⟨(serialPipe_fanout c4_input (by decide)).1,
    (serialPipe_fanout c4_input (by decide)).2.1 (by decide)⟩

/-- C10: in a bridging tick in which no slot is connected, or every
connected slot reports a zero writable budget, maxToTcp is 0 (the code
resolves the empty minimum to 0), the chunk length is 0 so no byte is
read from the serial port, no fan-out happens, and the pending serial
bytes remain buffered. -/
theorem serialPipe_no_writable_client (inp : PipeInput)
    (hkey : inp.consoleBuf.head? ≠ some CONFIGURATION_KEY)
    (h : (∀ c ∈ (serialPipe inp).clients, c.connected = false) ∨
      (∀ c ∈ (serialPipe inp).clients, c.connected = true → c.afw = 0)) :
    maxToTcp (serialPipe inp).clients = 0 ∧
    (serialPipe inp).chunkLen = 0 ∧
    (serialPipe inp).sentTo =
      List.replicate (serialPipe inp).clients.length false ∧
    (serialPipe inp).serialRemaining = inp.serialAvail := by
  have h2 : ∀ c ∈ (serialPipe inp).clients, c.connected = true → c.afw = 0 := by
    rcases h with h | h
    · intro c hc hconn
      rw [h c hc] at hconn
      cases hconn
    · exact h
  have hmax : maxToTcp (serialPipe inp).clients = 0 := maxToTcp_zero _ h2
  refine ⟨hmax, ?_, ?_, ?_⟩ <;>
    · simp only [serialPipe, hkey, if_neg, if_false] at hmax ⊢
      rw [hmax]
      simp

/-- Witness for C10: a tick whose only connected slot is congested
leaves every serial byte buffered. -/
theorem serialPipe_no_writable_client_inst :
    maxToTcp (serialPipe c10_input).clients = 0 ∧
    (serialPipe c10_input).chunkLen = 0 ∧
    (serialPipe c10_input).sentTo =
      List.replicate (serialPipe c10_input).clients.length false ∧
    (serialPipe c10_input).serialRemaining = c10_input.serialAvail :=
  serialPipe_no_writable_client c10_input (by decide) (Or.inr (by decide))

/-! ## Claims on boot-time behaviour -/

theorem setup_poll_cons_key (t : Nat) (rest : List (Nat × Nat)) :
    setup_poll ((CONFIGURATION_KEY, t) :: rest) = some CONFIGURATION_KEY := by
  simp [setup_poll]

theorem setup_poll_cons_timeout (ch t : Nat) (rest : List (Nat × Nat))
    (hch : ch ≠ CONFIGURATION_KEY) (ht : CONFIG_CONSOLE_ENTRY_DELAY_MS ≤ t) :
    setup_poll ((ch, t) :: rest) = some ch := by
  simp [setup_poll, hch, ht]

theorem setup_poll_cons_skip (ch t : Nat) (rest : List (Nat × Nat))
    (hch : ch ≠ CONFIGURATION_KEY) (ht : t < CONFIG_CONSOLE_ENTRY_DELAY_MS) :
    setup_poll ((ch, t) :: rest) = setup_poll rest := by
  simp [setup_poll, hch, Nat.not_le.mpr ht]

/-- C7: the boot poll loop makes a single two-way decision bounded by
the 1000 ms window: when the trigger character is read while the window
is open the device enters configuration mode, when the window elapses
without the trigger character ever being read the device enters bridge
mode, and the decision is always made once some poll happens at or
after the deadline. -/
theorem setup_mode_selection (trace : List (Nat × Nat)) :
    (receivedInWindow trace = true → setup_mode trace = some true) ∧
    ((∀ p ∈ trace, p.1 ≠ CONFIGURATION_KEY) →
      (∃ p ∈ trace, CONFIG_CONSOLE_ENTRY_DELAY_MS ≤ p.2) →
      setup_mode trace = some false) ∧
    ((∃ p ∈ trace, CONFIG_CONSOLE_ENTRY_DELAY_MS ≤ p.2) →
      (setup_mode trace).isSome = true) := by
  induction trace with
  | nil =>
    refine ⟨?_, ?_, ?_⟩
    · intro h; cases h
    · intro _ h; simp at h
    · intro h; simp at h
  | cons p rest ih =>
    obtain ⟨ch, t⟩ := p
    by_cases hch : ch = CONFIGURATION_KEY
    · subst hch
      refine ⟨?_, ?_, ?_⟩
      · intro _; simp [setup_mode, setup_poll_cons_key]
      · intro hall _
        exact absurd rfl (hall (CONFIGURATION_KEY, t) (by simp))
      · intro _; simp [setup_mode, setup_poll_cons_key]
    · by_cases ht : CONFIG_CONSOLE_ENTRY_DELAY_MS ≤ t
      · refine ⟨?_, ?_, ?_⟩
        · intro h
          simp only [receivedInWindow, Bool.or_eq_true, Bool.and_eq_true,
            beq_iff_eq, decide_eq_true_eq] at h
          rcases h with h | h
          · exact absurd h hch
          · omega
        · intro _ _
          simp [setup_mode, setup_poll_cons_timeout ch t rest hch ht, hch]
        · intro _
          simp [setup_mode, setup_poll_cons_timeout ch t rest hch ht]
      · have ht2 : t < CONFIG_CONSOLE_ENTRY_DELAY_MS := Nat.not_le.mp ht
        have hpoll := setup_poll_cons_skip ch t rest hch ht2
        refine ⟨?_, ?_, ?_⟩
        · intro h
          simp only [receivedInWindow, Bool.or_eq_true, Bool.and_eq_true,
            beq_iff_eq, decide_eq_true_eq] at h
          rcases h with h | h
          · exact absurd h hch
          · simpa [setup_mode, hpoll] using ih.1 h.2
        · intro hall hex
          have hrest : ∃ p ∈ rest, CONFIG_CONSOLE_ENTRY_DELAY_MS ≤ p.2 := by
            rcases hex with ⟨q, hq, hle⟩
            rcases List.mem_cons.mp hq with rfl | hq2
            · exact absurd hle ht
            · exact ⟨q, hq2, hle⟩
          have := ih.2.1 (fun q hq => hall q (by simp [hq])) hrest
          simpa [setup_mode, hpoll] using this
        · intro hex
          have hrest : ∃ p ∈ rest, CONFIG_CONSOLE_ENTRY_DELAY_MS ≤ p.2 := by
            rcases hex with ⟨q, hq, hle⟩
            rcases List.mem_cons.mp hq with rfl | hq2
            · exact absurd hle ht
            · exact ⟨q, hq2, hle⟩
          simpa [setup_mode, hpoll] using ih.2.2 hrest

/-- Witness for C7: the trigger at millis 0 selects configuration mode;
a trigger-free poll at millis 1000 selects bridge mode. -/
theorem setup_mode_selection_inst :
    setup_mode [(99, 0)] = some true ∧ setup_mode [(255, 1000)] = some false :=
  ⟨(setup_mode_selection [(99, 0)]).1 (by decide),
    (setup_mode_selection [(255, 1000)]).2.1 (by decide) ⟨(255, 1000), by decide⟩⟩

/-- C8: the specification requires bridge-mode startup to apply the
persisted txPower, but setupSerialPipe calls WiFi.setOutputPower with
the constant DEFAULT_TX_POWER: with a stored transmit power of 15.0 the
radio is driven at 12.0 while the startup log prints 15.0, so the code
contradicts its own log line and the specification. -/
theorem setupSerialPipe_tx_power_bug :
    (setupSerialPipe tx15_config).appliedTxPower = DEFAULT_TX_POWER_BYTES ∧
    (setupSerialPipe tx15_config).loggedTxPower = TX_POWER_15_BYTES ∧
    (setupSerialPipe tx15_config).appliedTxPower ≠
      (setupSerialPipe tx15_config).loggedTxPower := by decide

end SerialPipe
